import Mathlib

/-!
Shallow embedding of `src/hyperparameter_tuning.py`, function
`generate_optimal_parameter_table(input_path, output_path)`.

The pipeline of the source, line by line:
read the CSV into a frame; collect the columns whose name starts with
`param_`; group the rows by `['configuration', 'sample_size', 'iteration']`
(pandas groupby: rows with a missing key value are dropped, the groups are
iterated in ascending order of their key tuples, rows inside a group keep
input order); for each group build a dict with the three key values and,
for each `param_` column, either the first value of the group (when the
column dtype is numeric) or the first entry of `values.mode()` (pandas
returns the modes of the non-missing values sorted ascending) or the
string "N/A" when the mode list is empty; build a frame from the dicts;
reorder its columns to the three keys followed by the stripped parameter
names sorted ascending (`replace('param_', '')` removes every occurrence
of the substring); create the output directory; write a CSV and an HTML
file; print the two paths; return the summary frame.

Cells are modelled as `Option Val` with `none` for NaN; `Val` is a number
(modelled as `Rat`: the source never computes with the numbers, it only
copies and compares them) or a string.  `pd.read_csv` produces homogeneous
columns (a column either holds no string entry — numeric dtype — or no
numeric entry — object dtype); `wellFormed` states that reachability
invariant.  The dtype of a group slice equals the dtype of its column, so
the source's `is_numeric_dtype(values)` on the group slice is modelled on
the full column: a read_csv column has numeric dtype exactly when it holds
no string entry.
-/

namespace Tuning

/-- A scalar value as produced by `pd.read_csv`: a number or a string. -/
inductive Val where
  | num (q : Rat)
  | str (s : String)
deriving DecidableEq, Repr

/-- A cell of a data frame; `none` models a missing entry (NaN). -/
abbrev Cell := Option Val

/-- True when the cell holds a string value. -/
def Cell.isStrVal : Cell → Bool
  | some (Val.str _) => true
  | _ => false

/-- True when the cell holds a numeric value. -/
def Cell.isNumVal : Cell → Bool
  | some (Val.num _) => true
  | _ => false

/-- A pandas data frame: a header of column names and rows of cells. -/
structure DataFrame where
  header : List String
  rows : List (List Cell)
deriving DecidableEq, Repr

/-- Lexicographic comparison of character lists by code point. -/
def charListLe : List Char → List Char → Bool
  | [], _ => true
  | _ :: _, [] => false
  | a :: as, b :: bs => if a = b then charListLe as bs else decide (a < b)

/-- Ordinal (code-point) comparison of strings, Python's `sorted` order. -/
def strLe (a b : String) : Bool := charListLe a.data b.data

/-- Total order used by numpy when sorting the modes of a column: numeric
order on numbers, code-point lexicographic order on strings.  A read_csv
column never mixes the two kinds, so the cross cases are arbitrary. -/
def Val.le : Val → Val → Bool
  | Val.num a, Val.num b => decide (a ≤ b)
  | Val.num _, Val.str _ => true
  | Val.str _, Val.num _ => false
  | Val.str a, Val.str b => strLe a b

/-- A grouping key: the (configuration, sample_size, iteration) triple. -/
abbrev Key := Val × Val × Val

/-- Lexicographic order on key triples, the order in which pandas groupby
iterates the groups. -/
def keyLe (a b : Key) : Bool :=
  if a.1 = b.1 then
    if a.2.1 = b.2.1 then Val.le a.2.2 b.2.2
    else Val.le a.2.1 b.2.1
  else Val.le a.1 b.1

/-- Insert into a list sorted by `le` (ascending). -/
def insertLe {α : Type} (le : α → α → Bool) (a : α) : List α → List α
  | [] => [a]
  | b :: l => if le a b then a :: b :: l else b :: insertLe le a l

/-- Insertion sort by `le`, ascending; models Python's `sorted` and the
ascending iteration order of pandas groupby keys. -/
def sortBy {α : Type} (le : α → α → Bool) : List α → List α
  | [] => []
  | a :: l => insertLe le a (sortBy le l)

/-- The three required key column names, in the order the source lists
them in `groupby`. -/
def keyNames : List String := ["configuration", "sample_size", "iteration"]

/-- Line 20 of the source: the columns whose name starts with `param_`
(`col.startswith('param_')`, modelled on the character lists). -/
def paramColumns (df : DataFrame) : List String :=
  df.header.filter (fun c => "param_".data.isPrefixOf c.data)

/-- One pass of Python's `str.replace` over the character list: scan left
to right, and at each position where `pat` is a prefix emit `rep` and jump
past the match (non-overlapping).  The fuel argument makes the recursion
structural; fuel equal to the list length suffices for a non-empty `pat`
because every step consumes at least one character. -/
def replaceAllAux (pat rep : List Char) : Nat → List Char → List Char
  | _, [] => []
  | 0, s => s
  | Nat.succ n, c :: s =>
    if pat.isPrefixOf (c :: s) then rep ++ replaceAllAux pat rep n ((c :: s).drop pat.length)
    else c :: replaceAllAux pat rep n s

/-- Python's `s.replace(pat, rep)` for a non-empty `pat`: replace every
non-overlapping occurrence of `pat`, scanning left to right. -/
def replaceAll (s pat rep : String) : String :=
  String.mk (replaceAllAux pat.data rep.data s.data.length s.data)

/-- Line 30 of the source, `param.replace('param_', '')`: removes every
occurrence of the substring, not only a leading prefix. -/
def stripName (c : String) : String := replaceAll c "param_" ""

/-- Index of a column name in the header. -/
def colIndex (header : List String) (name : String) : Option Nat :=
  header.findIdx? (fun c => c == name)

/-- The cell of a row under a column name (missing column reads as NaN;
the pipeline only reads columns it has checked to exist). -/
def getCell (header : List String) (row : List Cell) (name : String) : Cell :=
  match colIndex header name with
  | some i => (row.get? i).getD none
  | none => none

/-- All cells of a named column, top to bottom. -/
def colCells (df : DataFrame) (name : String) : List Cell :=
  df.rows.map (fun r => getCell df.header r name)

/-- Model of `pd.api.types.is_numeric_dtype` for a read_csv column: the
column dtype is numeric exactly when no entry of the column is a string.
A group slice keeps the dtype of its column, so the source's check on the
slice is a check on the full column. -/
def isNumericDtype (cells : List Cell) : Bool :=
  cells.all (fun c => !(Cell.isStrVal c))

/-- A read_csv column is homogeneous: either no string entry (numeric
dtype) or no numeric entry (object dtype, every value read as a string). -/
def colHomogeneous (cells : List Cell) : Bool :=
  cells.all (fun c => !(Cell.isStrVal c)) || cells.all (fun c => !(Cell.isNumVal c))

/-- The frame is reachable from `pd.read_csv`: every column homogeneous. -/
def wellFormed (df : DataFrame) : Bool :=
  df.header.all (fun n => colHomogeneous (colCells df n))

/-- The grouping key of a row: `none` when any of the three key cells is
missing (pandas groupby drops such rows, `dropna=True` default). -/
def keyOf (df : DataFrame) (row : List Cell) : Option Key :=
  match getCell df.header row "configuration", getCell df.header row "sample_size",
        getCell df.header row "iteration" with
  | some c, some s, some i => some (c, s, i)
  | _, _, _ => none

/-- The distinct key triples occurring among the rows (a row with a
missing key component has no key triple). -/
def distinctKeys (df : DataFrame) : List Key :=
  (df.rows.filterMap (keyOf df)).dedup

/-- The group keys in the order pandas groupby iterates them: the distinct
key triples, sorted ascending. -/
def groupKeys (df : DataFrame) : List Key :=
  sortBy keyLe (distinctKeys df)

/-- The rows of the group of key `k`, in input order. -/
def groupRows (df : DataFrame) (k : Key) : List (List Cell) :=
  df.rows.filter (fun r => decide (keyOf df r = some k))

/-- Count of `v` in a list of values. -/
def countVal (l : List Val) (v : Val) : Nat := l.count v

/-- The largest frequency attained by any value of `l`. -/
def maxFreq (l : List Val) : Nat :=
  (l.map (fun v => countVal l v)).foldr Nat.max 0

/-- Model of `values.mode()` on the non-missing values of a group slice:
the distinct values of maximal frequency, sorted ascending (pandas sorts
the modes before returning them). -/
def modeList (l : List Val) : List Val :=
  sortBy Val.le (l.dedup.filter (fun v => countVal l v == maxFreq l))

/-- Lines 31-36 of the source, the per-parameter reduction of one group:
first value of the group when the column dtype is numeric, else the first
entry of the sorted mode list of the group's non-missing values, else the
string "N/A" when that list is empty. -/
def reduceParam (df : DataFrame) (group : List (List Cell)) (p : String) : Cell :=
  if isNumericDtype (colCells df p) then
    (group.map (fun r => getCell df.header r p)).headD none
  else
    match modeList ((group.map (fun r => getCell df.header r p)).filterMap id) with
    | [] => some (Val.str "N/A")
    | m :: _ => some m

/-- Python dict lookup on the association-list model of a row dict
(keys are unique, so the first hit is the entry). -/
def dictGet : List (String × Cell) → String → Option Cell
  | [], _ => none
  | e :: t, k => if e.1 = k then some e.2 else dictGet t k

/-- The keys of a row dict, in insertion order. -/
def dictKeys (d : List (String × Cell)) : List String :=
  d.map (fun e => e.1)

/-- Python dict assignment `d[k] = v`: overwrite in place when the key is
present (keeping its position, as Python dicts do), append at the end
otherwise. -/
def dictInsert : List (String × Cell) → String → Cell → List (String × Cell)
  | [], k, v => [(k, v)]
  | e :: t, k, v => if e.1 = k then (k, v) :: t else e :: dictInsert t k v

/-- Lines 25-36 of the source: the summary dict built for the group of
key `k` — the three key values, then one entry per `param_` column under
its stripped name. -/
def summaryRowFor (df : DataFrame) (k : Key) : List (String × Cell) :=
  let group := groupRows df k
  let base : List (String × Cell) :=
    [("configuration", some k.1), ("sample_size", some k.2.1), ("iteration", some k.2.2)]
  (paramColumns df).foldl (fun d p => dictInsert d (stripName p) (reduceParam df group p)) base

/-- One step of the column-union fold: append the unseen keys of a dict. -/
def unionStep (acc : List String) (d : List (String × Cell)) : List String :=
  acc ++ (dictKeys d).filter (fun k => decide (k ∉ acc))

/-- Column set of `pd.DataFrame(rows)` for a list of dicts: union of the
dict keys, first seen first. -/
def unionKeys (ds : List (List (String × Cell))) : List String :=
  ds.foldl unionStep []

/-- The errors the source can raise before writing any file: pandas
KeyError from `groupby` on a missing key column, and pandas KeyError from
`df_summary[ordered_columns]` when a requested column is absent. -/
inductive BuildError where
  | missingColumn
  | columnSelection
deriving DecidableEq, Repr

/-- Line 44 of the source, `df_summary[ordered_columns]`: reindex the
dict rows by the requested column names; KeyError when some requested
name is not a column of the frame built from the dicts. -/
def selectColumns (ds : List (List (String × Cell))) (cols : List String) :
    Except BuildError DataFrame :=
  if cols.all (fun c => decide (c ∈ unionKeys ds)) then
    Except.ok { header := cols,
                rows := ds.map (fun d => cols.map (fun c => (dictGet d c).getD none)) }
  else Except.error BuildError.columnSelection

/-- Line 43 of the source: the output column order — the three keys, then
the stripped parameter names sorted ascending. -/
def orderedColumns (df : DataFrame) : List String :=
  keyNames ++ sortBy strLe ((paramColumns df).map stripName)

/-- The header check performed by `groupby`: all three key columns exist. -/
def keysPresent (df : DataFrame) : Bool :=
  keyNames.all (fun c => decide (c ∈ df.header))

/-- Lines 24-44 of the source: group, reduce each group to a dict, build
the summary frame, reorder its columns. -/
def buildSummary (df : DataFrame) : Except BuildError DataFrame :=
  selectColumns ((groupKeys df).map (fun k => summaryRowFor df k)) (orderedColumns df)

/-- Model of posix `os.path.join` for the two output paths. -/
def joinPath (a b : String) : String :=
  if "/".data.isPrefixOf b.data then b
  else if a = "" then b
  else if "/".data.isSuffixOf a.data then a ++ b
  else a ++ "/" ++ b

/-- Name of the CSV output file. -/
def csvFileName : String := "optimal_parameters_summary_table.csv"

/-- Name of the HTML output file. -/
def htmlFileName : String := "optimal_parameters_summary_table.html"

instance {ε α : Type} [DecidableEq ε] [DecidableEq α] : DecidableEq (Except ε α) := fun a b =>
  match a, b with
  | Except.ok x, Except.ok y =>
      if h : x = y then isTrue (by rw [h]) else isFalse (by intro hc; cases hc; exact h rfl)
  | Except.error x, Except.error y =>
      if h : x = y then isTrue (by rw [h]) else isFalse (by intro hc; cases hc; exact h rfl)
  | Except.ok _, Except.error _ => isFalse (by intro hc; cases hc)
  | Except.error _, Except.ok _ => isFalse (by intro hc; cases hc)

/-- The observable outcome of a successful run: the frame the Python
function returns, the paths of the files it wrote (in write order), and
what it printed to standard output. -/
structure GenResult where
  returned : DataFrame
  writtenFiles : List String
  stdout : String
deriving DecidableEq, Repr

/-- The whole of `generate_optimal_parameter_table`: check the key
columns (groupby raises KeyError before any grouping otherwise), build
and reorder the summary frame (KeyError at the reorder when it has no
columns), then write the CSV and the HTML file, print the two paths and
return the summary frame.  An error result models the Python exception
propagating: nothing is written and nothing is returned. -/
def generateOptimalParameterTable (df : DataFrame) (outputPath : String) :
    Except BuildError GenResult :=
  if keysPresent df then
    match buildSummary df with
    | Except.ok summary =>
        let csvPath := joinPath outputPath csvFileName
        let htmlPath := joinPath outputPath htmlFileName
        Except.ok { returned := summary,
                    writtenFiles := [csvPath, htmlPath],
                    stdout := "Table saved to:\n- " ++ csvPath ++ "\n- " ++ htmlPath ++ "\n" }
    | Except.error e => Except.error e
  else Except.error BuildError.missingColumn

/-- The frame with the rows whose key triple is incomplete removed. -/
def dropIncompleteRows (df : DataFrame) : DataFrame :=
  { df with rows := df.rows.filter (fun r => (keyOf df r).isSome) }

/-- True on `Except.ok`. -/
def exceptOk {ε α : Type} : Except ε α → Bool
  | Except.ok _ => true
  | Except.error _ => false

/-- Does the frame mention the string anywhere (as a column name or as a
cell value)?  Used to show the returned frame carries no output path. -/
def dfMentions (df : DataFrame) (s : String) : Bool :=
  df.header.contains s || df.rows.any (fun r => r.any (fun c => c == some (Val.str s)))

/-- Modelled from the spec: the non-missing values of a parameter column
inside one group, the input of the mode computation. -/
def groupParamVals (df : DataFrame) (k : Key) (p : String) : List Val :=
  ((groupRows df k).map (fun r => getCell df.header r p)).filterMap id

/-- Modelled from the spec: "first value attaining maximum frequency in a
stable frequency count", the tie-break the spec ascribes to the mode. -/
def specFirstModeByEncounter (l : List Val) : Option Val :=
  l.find? (fun v => countVal l v == maxFreq l)

/-- Modelled from the spec: "identified by stripping the `param_` prefix
from its source column name". -/
def specStripPrefix (s : String) : String :=
  if "param_".data.isPrefixOf s.data then String.mk (s.data.drop 6) else s

/-!  Generic lemmas about the insertion sort used to model Python's
`sorted` and the sorted mode list of pandas. -/

theorem length_insertLe {α : Type} (le : α → α → Bool) (a : α) (l : List α) :
    (insertLe le a l).length = l.length + 1 := by
  induction l with
  | nil => rfl
  | cons b t ih =>
      by_cases h : le a b = true
      · simp [insertLe, h]
      · simp [insertLe, h, ih]

theorem length_sortBy {α : Type} (le : α → α → Bool) (l : List α) :
    (sortBy le l).length = l.length := by
  induction l with
  | nil => rfl
  | cons a t ih => simp [sortBy, length_insertLe, ih]

theorem mem_insertLe {α : Type} (le : α → α → Bool) (a x : α) (l : List α) :
    x ∈ insertLe le a l ↔ x = a ∨ x ∈ l := by
  induction l with
  | nil => simp [insertLe]
  | cons b t ih =>
      by_cases h : le a b = true
      · have he : insertLe le a (b :: t) = a :: b :: t := by simp [insertLe, h]
        rw [he]
        simp [List.mem_cons]
      · have he : insertLe le a (b :: t) = b :: insertLe le a t := by simp [insertLe, h]
        rw [he]
        simp only [List.mem_cons, ih]
        tauto

theorem mem_sortBy {α : Type} (le : α → α → Bool) (x : α) (l : List α) :
    x ∈ sortBy le l ↔ x ∈ l := by
  induction l with
  | nil => simp [sortBy]
  | cons a t ih => simp [sortBy, mem_insertLe, ih]

theorem perm_insertLe {α : Type} (le : α → α → Bool) (a : α) (l : List α) :
    (insertLe le a l).Perm (a :: l) := by
  induction l with
  | nil => simp [insertLe]
  | cons b t ih =>
      by_cases h : le a b = true
      · simp [insertLe, h]
      · have he : insertLe le a (b :: t) = b :: insertLe le a t := by simp [insertLe, h]
        rw [he]
        exact (List.Perm.cons b ih).trans (List.Perm.swap a b t)

theorem perm_sortBy {α : Type} (le : α → α → Bool) (l : List α) :
    (sortBy le l).Perm l := by
  induction l with
  | nil => simp [sortBy]
  | cons a t ih => exact (perm_insertLe le a (sortBy le t)).trans (List.Perm.cons a ih)

theorem pairwise_insertLe {α : Type} (le : α → α → Bool)
    (htot : ∀ a b, le a b = true ∨ le b a = true)
    (htrans : ∀ a b c, le a b = true → le b c = true → le a c = true)
    (a : α) (l : List α) (hl : l.Pairwise (fun x y => le x y = true)) :
    (insertLe le a l).Pairwise (fun x y => le x y = true) := by
  induction l with
  | nil => simp [insertLe]
  | cons b t ih =>
      rcases List.pairwise_cons.mp hl with ⟨hb, ht⟩
      by_cases h : le a b = true
      · have he : insertLe le a (b :: t) = a :: b :: t := by simp [insertLe, h]
        rw [he]
        refine List.pairwise_cons.mpr ⟨?_, hl⟩
        intro y hy
        rcases List.mem_cons.mp hy with rfl | hy'
        · exact h
        · exact htrans a b y h (hb y hy')
      · have he : insertLe le a (b :: t) = b :: insertLe le a t := by simp [insertLe, h]
        rw [he]
        refine List.pairwise_cons.mpr ⟨?_, ih ht⟩
        intro y hy
        rcases (mem_insertLe le a y t).mp hy with rfl | hy'
        · rcases htot y b with hab | hba
          · exact absurd hab h
          · exact hba
        · exact hb y hy'

theorem pairwise_sortBy {α : Type} (le : α → α → Bool)
    (htot : ∀ a b, le a b = true ∨ le b a = true)
    (htrans : ∀ a b c, le a b = true → le b c = true → le a c = true)
    (l : List α) :
    (sortBy le l).Pairwise (fun x y => le x y = true) := by
  induction l with
  | nil => simp [sortBy]
  | cons a t ih => exact pairwise_insertLe le htot htrans a (sortBy le t) ih

theorem sortBy_head_min {α : Type} (le : α → α → Bool)
    (hrefl : ∀ a, le a a = true)
    (htot : ∀ a b, le a b = true ∨ le b a = true)
    (htrans : ∀ a b c, le a b = true → le b c = true → le a c = true)
    (l : List α) (m : α) (rest : List α) (h : sortBy le l = m :: rest) :
    ∀ x ∈ l, le m x = true := by
  intro x hx
  have hx' : x ∈ m :: rest := h ▸ (mem_sortBy le x l).mpr hx
  have hp := pairwise_sortBy le htot htrans l
  rw [h] at hp
  rcases List.mem_cons.mp hx' with rfl | hx''
  · exact hrefl x
  · exact (List.pairwise_cons.mp hp).1 x hx''

/-!  The comparison functions used for sorting are total preorders. -/

theorem charListLe_refl (l : List Char) : charListLe l l = true := by
  induction l with
  | nil => rfl
  | cons a t ih => simp [charListLe, ih]

theorem charListLe_total (l m : List Char) :
    charListLe l m = true ∨ charListLe m l = true := by
  induction l generalizing m with
  | nil => exact Or.inl rfl
  | cons a t ih =>
      cases m with
      | nil => exact Or.inr rfl
      | cons b s =>
          by_cases hab : a = b
          · subst hab
            rcases ih s with h | h
            · exact Or.inl (by simp [charListLe, h])
            · exact Or.inr (by simp [charListLe, h])
          · rcases lt_trichotomy a b with hlt | heq | hgt
            · exact Or.inl (by simp [charListLe, hab, hlt])
            · exact absurd heq hab
            · refine Or.inr ?_
              have hba : b ≠ a := fun hc => hab hc.symm
              simp [charListLe, hba, hgt]

theorem charListLe_trans (l m n : List Char) (h1 : charListLe l m = true)
    (h2 : charListLe m n = true) : charListLe l n = true := by
  induction l generalizing m n with
  | nil => rfl
  | cons a t ih =>
      cases m with
      | nil => simp [charListLe] at h1
      | cons b s =>
          cases n with
          | nil => simp [charListLe] at h2
          | cons c u =>
              by_cases hab : a = b
              · subst hab
                simp only [charListLe, if_pos rfl] at h1
                by_cases hbc : a = c
                · subst hbc
                  simp only [charListLe, if_pos rfl] at h2 ⊢
                  exact ih s u h1 h2
                · simp only [charListLe, if_neg hbc] at h2 ⊢
                  exact h2
              · simp only [charListLe, if_neg hab] at h1
                have hab' : a < b := of_decide_eq_true h1
                by_cases hbc : b = c
                · subst hbc
                  simp [charListLe, hab, hab']
                · simp only [charListLe, if_neg hbc] at h2
                  have hbc' : b < c := of_decide_eq_true h2
                  have hac : a < c := lt_trans hab' hbc'
                  have hne : a ≠ c := ne_of_lt hac
                  simp [charListLe, hne, hac]

theorem strLe_refl (a : String) : strLe a a = true := charListLe_refl a.data

theorem strLe_total (a b : String) : strLe a b = true ∨ strLe b a = true :=
  charListLe_total a.data b.data

theorem strLe_trans (a b c : String) (h1 : strLe a b = true) (h2 : strLe b c = true) :
    strLe a c = true := charListLe_trans a.data b.data c.data h1 h2

theorem valLe_refl (a : Val) : Val.le a a = true := by
  cases a with
  | num q => simp [Val.le]
  | str s => exact strLe_refl s

theorem valLe_total (a b : Val) : Val.le a b = true ∨ Val.le b a = true := by
  cases a with
  | num qa =>
      cases b with
      | num qb =>
          rcases le_total qa qb with h | h
          · exact Or.inl (by simp [Val.le, h])
          · exact Or.inr (by simp [Val.le, h])
      | str _ => exact Or.inl rfl
  | str sa =>
      cases b with
      | num _ => exact Or.inr rfl
      | str sb => exact strLe_total sa sb

theorem valLe_trans (a b c : Val) (h1 : Val.le a b = true) (h2 : Val.le b c = true) :
    Val.le a c = true := by
  cases a with
  | num qa =>
      cases c with
      | num qc =>
          cases b with
          | num qb =>
              simp only [Val.le, decide_eq_true_eq] at h1 h2 ⊢
              exact le_trans h1 h2
          | str _ => simp [Val.le] at h2
      | str _ => rfl
  | str sa =>
      cases b with
      | num _ => simp [Val.le] at h1
      | str sb =>
          cases c with
          | num _ => simp [Val.le] at h2
          | str sc => exact strLe_trans sa sb sc h1 h2

/-!  Frequency counting: `maxFreq` bounds every count and is attained. -/

theorem le_foldr_max (l : List Nat) (x : Nat) (hx : x ∈ l) :
    x ≤ l.foldr Nat.max 0 := by
  induction l with
  | nil => cases hx
  | cons a t ih =>
      rcases List.mem_cons.mp hx with rfl | hx'
      · exact Nat.le_max_left x (t.foldr Nat.max 0)
      · exact le_trans (ih hx') (Nat.le_max_right a (t.foldr Nat.max 0))

theorem natMax_choice (a b : Nat) : Nat.max a b = a ∨ Nat.max a b = b := by
  rcases Nat.le_total a b with h | h
  · exact Or.inr (Nat.max_eq_right h)
  · exact Or.inl (Nat.max_eq_left h)

theorem foldr_max_zero_or_mem (l : List Nat) :
    l.foldr Nat.max 0 = 0 ∨ l.foldr Nat.max 0 ∈ l := by
  induction l with
  | nil => exact Or.inl rfl
  | cons a t ih =>
      rcases natMax_choice a (t.foldr Nat.max 0) with h | h
      · exact Or.inr (by rw [List.foldr_cons, h]; exact List.mem_cons_self a t)
      · rcases ih with h0 | hm
        · exact Or.inl (by rw [List.foldr_cons, h, h0])
        · exact Or.inr (by rw [List.foldr_cons, h]; exact List.mem_cons_of_mem a hm)

theorem count_le_maxFreq (l : List Val) (v : Val) (hv : v ∈ l) :
    countVal l v ≤ maxFreq l := by
  apply le_foldr_max
  exact List.mem_map.mpr ⟨v, hv, rfl⟩

theorem exists_count_eq_maxFreq (l : List Val) (h : l ≠ []) :
    ∃ v ∈ l, countVal l v = maxFreq l := by
  rcases foldr_max_zero_or_mem (l.map (fun v => countVal l v)) with h0 | hm
  · rcases List.exists_mem_of_ne_nil l h with ⟨v, hv⟩
    have hpos : 0 < countVal l v := List.count_pos_iff.mpr hv
    have hle : countVal l v ≤ maxFreq l := count_le_maxFreq l v hv
    have : maxFreq l = 0 := h0
    omega
  · rcases List.mem_map.mp hm with ⟨v, hv, hveq⟩
    exact ⟨v, hv, hveq⟩

/-!  Characterization of the first entry of the sorted mode list. -/

theorem modeList_ne_nil (l : List Val) (h : l ≠ []) : modeList l ≠ [] := by
  rcases exists_count_eq_maxFreq l h with ⟨v, hv, hveq⟩
  intro hc
  have hvmem : v ∈ modeList l := by
    rw [modeList, mem_sortBy]
    refine List.mem_filter.mpr ⟨List.mem_dedup.mpr hv, ?_⟩
    simp [hveq]
  rw [hc] at hvmem
  cases hvmem

theorem modeList_head_spec (l : List Val) (m : Val) (rest : List Val)
    (h : modeList l = m :: rest) :
    m ∈ l ∧ countVal l m = maxFreq l ∧
      ∀ v ∈ l, countVal l v = maxFreq l → Val.le m v = true := by
  have hm : m ∈ modeList l := by rw [h]; exact List.mem_cons_self m rest
  rw [modeList, mem_sortBy] at hm
  rcases List.mem_filter.mp hm with ⟨hmd, hmc⟩
  refine ⟨List.mem_dedup.mp hmd, by simpa using hmc, ?_⟩
  intro v hv hvc
  have hvmem : v ∈ l.dedup.filter (fun v => countVal l v == maxFreq l) :=
    List.mem_filter.mpr ⟨List.mem_dedup.mpr hv, by simp [hvc]⟩
  exact sortBy_head_min Val.le valLe_refl valLe_total valLe_trans _ m rest h v hvmem

/-!  Lemmas about the Python-dict model: lookup after insert, the keys of
an insert, and lookup through the fold that builds a summary row. -/

theorem dictGet_dictInsert_self (d : List (String × Cell)) (k : String) (v : Cell) :
    dictGet (dictInsert d k v) k = some v := by
  induction d with
  | nil => simp [dictInsert, dictGet]
  | cons e t ih =>
      by_cases h : e.1 = k
      · simp [dictInsert, dictGet, h]
      · simp [dictInsert, dictGet, h, ih]

theorem dictGet_dictInsert_ne (d : List (String × Cell)) (k k' : String) (v : Cell)
    (h : k' ≠ k) : dictGet (dictInsert d k v) k' = dictGet d k' := by
  have hkk : ¬ k = k' := Ne.symm h
  induction d with
  | nil => simp [dictInsert, dictGet, hkk]
  | cons e t ih =>
      by_cases he : e.1 = k
      · have hek : ¬ e.1 = k' := by rw [he]; exact hkk
        simp [dictInsert, dictGet, he, hek, hkk]
      · by_cases he' : e.1 = k'
        · simp [dictInsert, dictGet, he, he', h]
        · simp [dictInsert, dictGet, he, he', ih]

theorem dictKeys_dictInsert (d : List (String × Cell)) (k : String) (v : Cell) :
    dictKeys (dictInsert d k v)
      = if k ∈ dictKeys d then dictKeys d else dictKeys d ++ [k] := by
  induction d with
  | nil => simp [dictInsert, dictKeys]
  | cons e t ih =>
      have hcons : dictKeys (e :: t) = e.1 :: dictKeys t := rfl
      by_cases h : e.1 = k
      · have hins : dictInsert (e :: t) k v = (k, v) :: t := by simp [dictInsert, h]
        rw [hins, hcons]
        have hk : k ∈ e.1 :: dictKeys t := by rw [h]; exact List.mem_cons_self _ _
        rw [if_pos hk]
        simp [dictKeys, h]
      · have hins : dictInsert (e :: t) k v = e :: dictInsert t k v := by simp [dictInsert, h]
        rw [hins]
        have hstep : dictKeys (e :: dictInsert t k v) = e.1 :: dictKeys (dictInsert t k v) := rfl
        rw [hstep, ih, hcons]
        have hne : k ≠ e.1 := fun hc => h hc.symm
        by_cases hm : k ∈ dictKeys t
        · rw [if_pos hm, if_pos (List.mem_cons_of_mem _ hm)]
        · have hnm : k ∉ e.1 :: dictKeys t := by
            intro hc
            rcases List.mem_cons.mp hc with hc1 | hc2
            · exact hne hc1
            · exact hm hc2
          rw [if_neg hm, if_neg hnm, List.cons_append]

theorem dictKeys_foldl_insert_congr (g : String → String) (f₁ f₂ : String → Cell)
    (ps : List String) :
    ∀ (d₁ d₂ : List (String × Cell)), dictKeys d₁ = dictKeys d₂ →
      dictKeys (ps.foldl (fun acc q => dictInsert acc (g q) (f₁ q)) d₁)
        = dictKeys (ps.foldl (fun acc q => dictInsert acc (g q) (f₂ q)) d₂) := by
  induction ps with
  | nil => intro d₁ d₂ h; exact h
  | cons p t ih =>
      intro d₁ d₂ h
      rw [List.foldl_cons, List.foldl_cons]
      apply ih
      rw [dictKeys_dictInsert, dictKeys_dictInsert, h]

theorem mem_dictKeys_dictInsert_of_mem (d : List (String × Cell)) (k x : String) (v : Cell)
    (hx : x ∈ dictKeys d) : x ∈ dictKeys (dictInsert d k v) := by
  rw [dictKeys_dictInsert]
  by_cases h : k ∈ dictKeys d
  · rw [if_pos h]; exact hx
  · rw [if_neg h]; exact List.mem_append_left _ hx

theorem mem_dictKeys_dictInsert_self (d : List (String × Cell)) (k : String) (v : Cell) :
    k ∈ dictKeys (dictInsert d k v) := by
  rw [dictKeys_dictInsert]
  by_cases h : k ∈ dictKeys d
  · rw [if_pos h]; exact h
  · rw [if_neg h]; exact List.mem_append_right _ (List.mem_cons_self k [])

theorem mem_dictKeys_foldl_insert_of_mem (g : String → String) (f : String → Cell)
    (ps : List String) :
    ∀ (d : List (String × Cell)) (x : String), x ∈ dictKeys d →
      x ∈ dictKeys (ps.foldl (fun acc q => dictInsert acc (g q) (f q)) d) := by
  induction ps with
  | nil => intro d x hx; exact hx
  | cons p t ih =>
      intro d x hx
      rw [List.foldl_cons]
      exact ih _ x (mem_dictKeys_dictInsert_of_mem d (g p) x (f p) hx)

theorem mem_dictKeys_foldl_insert (g : String → String) (f : String → Cell)
    (ps : List String) :
    ∀ (d : List (String × Cell)) (p : String), p ∈ ps →
      g p ∈ dictKeys (ps.foldl (fun acc q => dictInsert acc (g q) (f q)) d) := by
  induction ps with
  | nil => intro d p hp; cases hp
  | cons q t ih =>
      intro d p hp
      rw [List.foldl_cons]
      rcases List.mem_cons.mp hp with rfl | hp'
      · exact mem_dictKeys_foldl_insert_of_mem g f t _ (g p)
          (mem_dictKeys_dictInsert_self d (g p) (f p))
      · exact ih _ p hp'

theorem dictGet_foldl_insert_notMem (g : String → String) (f : String → Cell)
    (ps : List String) :
    ∀ (d : List (String × Cell)) (x : String), x ∉ ps.map g →
      dictGet (ps.foldl (fun acc q => dictInsert acc (g q) (f q)) d) x = dictGet d x := by
  induction ps with
  | nil => intro d x _; rfl
  | cons p t ih =>
      intro d x hx
      rw [List.map_cons] at hx
      have hx1 : x ≠ g p := fun hc => hx (hc ▸ List.mem_cons_self _ _)
      have hx2 : x ∉ t.map g := fun hc => hx (List.mem_cons_of_mem _ hc)
      rw [List.foldl_cons, ih _ x hx2, dictGet_dictInsert_ne d (g p) x (f p) hx1]

theorem dictGet_foldl_insert (g : String → String) (f : String → Cell)
    (ps : List String) :
    ∀ (d : List (String × Cell)) (p : String), p ∈ ps → (ps.map g).Nodup →
      dictGet (ps.foldl (fun acc q => dictInsert acc (g q) (f q)) d) (g p) = some (f p) := by
  induction ps with
  | nil => intro d p hp _; cases hp
  | cons q t ih =>
      intro d p hp hnd
      rw [List.map_cons] at hnd
      rcases List.pairwise_cons.mp hnd with ⟨hq, ht⟩
      rw [List.foldl_cons]
      by_cases hpt : p ∈ t
      · exact ih _ p hpt ht
      · have hpq : p = q := by
          rcases List.mem_cons.mp hp with h | h
          · exact h
          · exact absurd h hpt
        subst hpq
        have hgp : g p ∉ t.map g := by
          intro hc
          exact (hq (g p) hc) rfl
        rw [dictGet_foldl_insert_notMem g f t _ (g p) hgp]
        exact dictGet_dictInsert_self d (g p) (f p)

/-!  From dict lemmas to the summary rows and the column selection. -/

theorem dictGet_summaryRowFor (df : DataFrame) (k : Key) (p : String)
    (hp : p ∈ paramColumns df)
    (hnd : ((paramColumns df).map stripName).Nodup) :
    dictGet (summaryRowFor df k) (stripName p)
      = some (reduceParam df (groupRows df k) p) :=
  dictGet_foldl_insert stripName (fun q => reduceParam df (groupRows df k) q)
    (paramColumns df) _ p hp hnd

theorem dictKeys_summaryRowFor_congr (df df' : DataFrame) (k k' : Key)
    (h : paramColumns df = paramColumns df') :
    dictKeys (summaryRowFor df k) = dictKeys (summaryRowFor df' k') := by
  rw [summaryRowFor, summaryRowFor, h]
  exact dictKeys_foldl_insert_congr stripName
    (fun q => reduceParam df (groupRows df k) q)
    (fun q => reduceParam df' (groupRows df' k') q)
    (paramColumns df') _ _ rfl

theorem mem_foldl_unionStep (ds : List (List (String × Cell))) :
    ∀ (acc : List String) (x : String), x ∈ acc → x ∈ ds.foldl unionStep acc := by
  induction ds with
  | nil => intro acc x hx; exact hx
  | cons d t ih =>
      intro acc x hx
      rw [List.foldl_cons]
      exact ih _ x (List.mem_append_left _ hx)

theorem mem_unionKeys_head (d : List (String × Cell)) (ds : List (List (String × Cell)))
    (x : String) (hx : x ∈ dictKeys d) : x ∈ unionKeys (d :: ds) := by
  rw [unionKeys, List.foldl_cons]
  apply mem_foldl_unionStep
  rw [unionStep, List.nil_append]
  exact List.mem_filter.mpr ⟨hx, by simp⟩

theorem mem_dictKeys_summaryRowFor (df : DataFrame) (k : Key) (c : String)
    (hc : c ∈ orderedColumns df) : c ∈ dictKeys (summaryRowFor df k) := by
  rcases List.mem_append.mp hc with hkey | hparam
  · exact mem_dictKeys_foldl_insert_of_mem stripName
      (fun q => reduceParam df (groupRows df k) q) (paramColumns df) _ c hkey
  · rw [mem_sortBy] at hparam
    rcases List.mem_map.mp hparam with ⟨q, hq, hqc⟩
    exact hqc ▸ mem_dictKeys_foldl_insert stripName
      (fun q => reduceParam df (groupRows df k) q) (paramColumns df) _ q hq

theorem buildSummary_eq_ok (df : DataFrame) (h : groupKeys df ≠ []) :
    buildSummary df = Except.ok
      { header := orderedColumns df,
        rows := (groupKeys df).map (fun k => (orderedColumns df).map
          (fun c => (dictGet (summaryRowFor df k) c).getD none)) } := by
  rcases List.exists_cons_of_ne_nil h with ⟨k0, kt, hk⟩
  have hall : ((orderedColumns df).all
      (fun c => decide (c ∈ unionKeys ((groupKeys df).map (fun k => summaryRowFor df k)))))
      = true := by
    apply List.all_eq_true.mpr
    intro c hc
    apply decide_eq_true
    rw [hk, List.map_cons]
    exact mem_unionKeys_head _ _ c (mem_dictKeys_summaryRowFor df k0 c hc)
  rw [buildSummary, selectColumns, if_pos hall, List.map_map]
  rfl

theorem buildSummary_eq_err (df : DataFrame) (h : groupKeys df = []) :
    buildSummary df = Except.error BuildError.columnSelection := by
  have hcfg : "configuration" ∈ orderedColumns df :=
    List.mem_append_left _ (by simp [keyNames])
  have hall : ¬ (((orderedColumns df).all
      (fun c => decide (c ∈ unionKeys ((groupKeys df).map (fun k => summaryRowFor df k)))))
      = true) := by
    intro hc
    have := List.all_eq_true.mp hc "configuration" hcfg
    rw [h] at this
    simp [unionKeys] at this
  rw [buildSummary, selectColumns, if_neg hall]

/-!  Characterization of the whole pipeline's success and failure. -/

theorem generate_eq_ok (df : DataFrame) (out : String)
    (h1 : keysPresent df = true) (h2 : groupKeys df ≠ []) :
    generateOptimalParameterTable df out = Except.ok
      { returned :=
          { header := orderedColumns df,
            rows := (groupKeys df).map (fun k => (orderedColumns df).map
              (fun c => (dictGet (summaryRowFor df k) c).getD none)) },
        writtenFiles := [joinPath out csvFileName, joinPath out htmlFileName],
        stdout := "Table saved to:\n- " ++ joinPath out csvFileName ++ "\n- "
          ++ joinPath out htmlFileName ++ "\n" } := by
  rw [generateOptimalParameterTable, if_pos h1, buildSummary_eq_ok df h2]

theorem generate_eq_err_missing (df : DataFrame) (out : String)
    (h1 : keysPresent df = false) :
    generateOptimalParameterTable df out = Except.error BuildError.missingColumn := by
  rw [generateOptimalParameterTable, if_neg (by rw [h1]; exact Bool.false_ne_true)]

theorem generate_eq_err_selection (df : DataFrame) (out : String)
    (h1 : keysPresent df = true) (h2 : groupKeys df = []) :
    generateOptimalParameterTable df out = Except.error BuildError.columnSelection := by
  rw [generateOptimalParameterTable, if_pos h1, buildSummary_eq_err df h2]

theorem exceptOk_generate (df : DataFrame) (out : String) :
    exceptOk (generateOptimalParameterTable df out)
      = (keysPresent df && !(groupKeys df).isEmpty) := by
  cases h1 : keysPresent df with
  | false => rw [generate_eq_err_missing df out h1]; rfl
  | true =>
      by_cases h2 : groupKeys df = []
      · rw [generate_eq_err_selection df out h1 h2, h2]; rfl
      · rw [generate_eq_ok df out h1 h2]
        rcases hk : groupKeys df with _ | ⟨k0, kt⟩
        · exact absurd hk h2
        · rfl

/-!  Rows with an incomplete key are invisible to the grouping. -/

theorem filterMap_filter_isSome {α β : Type} (f : α → Option β) (l : List α) :
    (l.filter (fun a => (f a).isSome)).filterMap f = l.filterMap f := by
  induction l with
  | nil => rfl
  | cons a t ih =>
      cases hf : f a with
      | none => simp [List.filter_cons, List.filterMap_cons, hf, ih]
      | some b => simp [List.filter_cons, List.filterMap_cons, hf, ih]

theorem keyOf_dropIncompleteRows (df : DataFrame) :
    keyOf (dropIncompleteRows df) = keyOf df := rfl

theorem groupKeys_dropIncompleteRows (df : DataFrame) :
    groupKeys (dropIncompleteRows df) = groupKeys df := by
  rw [groupKeys, groupKeys, distinctKeys, distinctKeys, keyOf_dropIncompleteRows]
  have hrows : (dropIncompleteRows df).rows
      = df.rows.filter (fun r => (keyOf df r).isSome) := rfl
  rw [hrows, filterMap_filter_isSome]

theorem groupRows_dropIncompleteRows (df : DataFrame) (k : Key) :
    groupRows (dropIncompleteRows df) k = groupRows df k := by
  show (df.rows.filter (fun r => (keyOf df r).isSome)).filter
      (fun r => decide (keyOf df r = some k))
    = df.rows.filter (fun r => decide (keyOf df r = some k))
  rw [List.filter_filter]
  apply List.filter_congr
  intro r _
  by_cases h : keyOf df r = some k
  · simp [h]
  · simp [h]

/-!  The three branches of the per-group reduction. -/

theorem isNumericDtype_true_of_mem_num (df : DataFrame) (p : String)
    (hwf : wellFormed df = true) (hph : p ∈ df.header)
    (r : List Cell) (hr : r ∈ df.rows)
    (hnum : Cell.isNumVal (getCell df.header r p) = true) :
    isNumericDtype (colCells df p) = true := by
  have hwfp : colHomogeneous (colCells df p) = true := List.all_eq_true.mp hwf p hph
  rcases (Bool.or_eq_true _ _).mp hwfp with hA | hB
  · exact hA
  · have hcell : getCell df.header r p ∈ colCells df p := List.mem_map.mpr ⟨r, hr, rfl⟩
    have hc := List.all_eq_true.mp hB _ hcell
    rw [hnum] at hc
    simp at hc

theorem isNumericDtype_false_of_mem_str (df : DataFrame) (p : String)
    (r : List Cell) (hr : r ∈ df.rows)
    (hstr : Cell.isStrVal (getCell df.header r p) = true) :
    isNumericDtype (colCells df p) = false := by
  cases hb : isNumericDtype (colCells df p) with
  | false => rfl
  | true =>
      have hcell : getCell df.header r p ∈ colCells df p := List.mem_map.mpr ⟨r, hr, rfl⟩
      have hc := List.all_eq_true.mp hb _ hcell
      rw [hstr] at hc
      simp at hc

theorem reduceParam_all_num (df : DataFrame) (k : Key) (p : String)
    (hwf : wellFormed df = true) (hph : p ∈ df.header)
    (r₀ : List Cell) (rest : List (List Cell))
    (hgrp : groupRows df k = r₀ :: rest)
    (hnum : (groupRows df k).all
      (fun r => Cell.isNumVal (getCell df.header r p)) = true) :
    reduceParam df (groupRows df k) p = getCell df.header r₀ p := by
  have hr0 : r₀ ∈ groupRows df k := hgrp ▸ List.mem_cons_self r₀ rest
  have hnum0 : Cell.isNumVal (getCell df.header r₀ p) = true :=
    List.all_eq_true.mp hnum r₀ hr0
  have hdt : isNumericDtype (colCells df p) = true :=
    isNumericDtype_true_of_mem_num df p hwf hph r₀ (List.mem_of_mem_filter hr0) hnum0
  rw [reduceParam, if_pos hdt, hgrp, List.map_cons]
  rfl

theorem reduceParam_all_missing (df : DataFrame) (k : Key) (p : String)
    (hne : groupRows df k ≠ [])
    (hmiss : (groupRows df k).all (fun r => (getCell df.header r p).isNone) = true) :
    reduceParam df (groupRows df k) p
      = if isNumericDtype (colCells df p) then none else some (Val.str "N/A") := by
  by_cases hdt : isNumericDtype (colCells df p) = true
  · rw [reduceParam, if_pos hdt, if_pos hdt]
    rcases List.exists_cons_of_ne_nil hne with ⟨r₀, rest, hgrp⟩
    have hr0 : r₀ ∈ groupRows df k := hgrp ▸ List.mem_cons_self r₀ rest
    have h0 : (getCell df.header r₀ p).isNone = true := List.all_eq_true.mp hmiss r₀ hr0
    rw [hgrp, List.map_cons]
    show getCell df.header r₀ p = none
    exact Option.isNone_iff_eq_none.mp h0
  · have hdt' : isNumericDtype (colCells df p) = false := by
      cases hb : isNumericDtype (colCells df p) with
      | false => rfl
      | true => exact absurd hb hdt
    rw [reduceParam, if_neg hdt, if_neg hdt]
    have hnil : ((groupRows df k).map (fun r => getCell df.header r p)).filterMap id = [] := by
      apply List.filterMap_eq_nil_iff.mpr
      intro c hc
      rcases List.mem_map.mp hc with ⟨r, hr, hrc⟩
      have h0 := List.all_eq_true.mp hmiss r hr
      rw [← hrc]
      exact Option.isNone_iff_eq_none.mp h0
    rw [hnil]
    rfl

/-!  Shorthands and concrete frames used by the witnesses and
counterexamples below. -/

/-- Shorthand for a string-valued cell. -/
def cellS (s : String) : Cell := some (Val.str s)

/-- Shorthand for a numeric cell. -/
def cellN (q : Rat) : Cell := some (Val.num q)

/-- Fallback payload used by `okResult` on an error. -/
def fallbackGenResult : GenResult :=
  { returned := { header := [], rows := [] }, writtenFiles := [], stdout := "" }

/-- The payload of a successful run (fallback on error); lets a concrete
statement name the result of a run without spelling the record out. -/
def okResult (x : Except BuildError GenResult) : GenResult :=
  match x with
  | Except.ok r => r
  | Except.error _ => fallbackGenResult

/-- A frame with one group whose numeric parameter values are [3, 3, 7]. -/
def wDf1 : DataFrame :=
  { header := ["configuration", "sample_size", "iteration", "param_depth"],
    rows :=
      [[cellS "cfgA", cellN 100, cellN 1, cellN 3],
       [cellS "cfgA", cellN 100, cellN 1, cellN 3],
       [cellS "cfgA", cellN 100, cellN 1, cellN 7]] }

/-- The key of the single group of `wDf1`. -/
def wKey1 : Key := (Val.str "cfgA", Val.num 100, Val.num 1)

/-- C1: for every group whose parameter column `p` holds only numeric
values, the summary value for `p` is the value of the group's first row in
input order (pandas keeps input order inside a group, so the head of
`groupRows` is the first input row of the group), not a mean, min, max or
mode.  Hypotheses: the frame is reachable from `read_csv`
(column-homogeneous), `p` is a parameter column, the stripped parameter
names do not collide, and every cell of `p` in the group holds a number. -/
theorem claim1_numeric_first_value (df : DataFrame) (k : Key) (p : String)
    (hwf : wellFormed df = true)
    (hp : p ∈ paramColumns df)
    (hnd : ((paramColumns df).map stripName).Nodup)
    (r₀ : List Cell) (rest : List (List Cell))
    (hgrp : groupRows df k = r₀ :: rest)
    (hnum : (groupRows df k).all
      (fun r => Cell.isNumVal (getCell df.header r p)) = true) :
    dictGet (summaryRowFor df k) (stripName p) = some (getCell df.header r₀ p) := by
  rw [dictGet_summaryRowFor df k p hp hnd,
    reduceParam_all_num df k p hwf (List.mem_of_mem_filter hp) r₀ rest hgrp hnum]

/-- C1 witness: the group with numeric values [3, 3, 7] yields 3. -/
theorem claim1_witness :
    wellFormed wDf1 = true ∧
    "param_depth" ∈ paramColumns wDf1 ∧
    ((paramColumns wDf1).map stripName).Nodup ∧
    groupRows wDf1 wKey1
      = [[cellS "cfgA", cellN 100, cellN 1, cellN 3],
         [cellS "cfgA", cellN 100, cellN 1, cellN 3],
         [cellS "cfgA", cellN 100, cellN 1, cellN 7]] ∧
    (groupRows wDf1 wKey1).all
      (fun r => Cell.isNumVal (getCell wDf1.header r "param_depth")) = true ∧
    dictGet (summaryRowFor wDf1 wKey1) (stripName "param_depth") = some (cellN 3) :=
  ⟨by decide, by decide, by decide, by decide, by decide,
    (claim1_numeric_first_value wDf1 wKey1 "param_depth" (by decide) (by decide)
      (by decide)
      [cellS "cfgA", cellN 100, cellN 1, cellN 3]
      [[cellS "cfgA", cellN 100, cellN 1, cellN 3],
       [cellS "cfgA", cellN 100, cellN 1, cellN 7]]
      (by decide) (by decide)).trans (by decide)⟩

/-- A frame with one group whose categorical values are [a, b, a]. -/
def wDf2 : DataFrame :=
  { header := ["configuration", "sample_size", "iteration", "param_opt"],
    rows :=
      [[cellS "cfgA", cellN 100, cellN 1, cellS "a"],
       [cellS "cfgA", cellN 100, cellN 1, cellS "b"],
       [cellS "cfgA", cellN 100, cellN 1, cellS "a"]] }

/-- The key of the single group of `wDf2`. -/
def wKey2 : Key := (Val.str "cfgA", Val.num 100, Val.num 1)

/-- C2 (amended): for every group whose parameter column contains a
non-numeric value, the summary value is a mode (a most frequent
non-missing value) of the column within the group; when several values tie
at maximum frequency the code takes the first entry of the sorted mode
list, i.e. the smallest tied value in ascending order — not the first tied
value in input-encounter order.  ["a", "b", "a"] still yields "a". -/
theorem claim2_mode_smallest (df : DataFrame) (k : Key) (p : String)
    (hwf : wellFormed df = true)
    (hp : p ∈ paramColumns df)
    (hnd : ((paramColumns df).map stripName).Nodup)
    (r : List Cell) (hr : r ∈ groupRows df k)
    (hstr : Cell.isStrVal (getCell df.header r p) = true) :
    ∃ m : Val,
      dictGet (summaryRowFor df k) (stripName p) = some (some m) ∧
      m ∈ groupParamVals df k p ∧
      countVal (groupParamVals df k p) m = maxFreq (groupParamVals df k p) ∧
      (∀ v ∈ groupParamVals df k p,
        countVal (groupParamVals df k p) v = maxFreq (groupParamVals df k p) →
          Val.le m v = true) := by
  have hdt : isNumericDtype (colCells df p) = false :=
    isNumericDtype_false_of_mem_str df p r (List.mem_of_mem_filter hr) hstr
  obtain ⟨s, hs⟩ : ∃ s, getCell df.header r p = some (Val.str s) := by
    cases hc : getCell df.header r p with
    | none => rw [hc] at hstr; simp [Cell.isStrVal] at hstr
    | some v =>
        cases v with
        | num q => rw [hc] at hstr; simp [Cell.isStrVal] at hstr
        | str s => exact ⟨s, rfl⟩
  have hcellmem : getCell df.header r p
      ∈ (groupRows df k).map (fun r => getCell df.header r p) :=
    List.mem_map.mpr ⟨r, hr, rfl⟩
  have hmem : Val.str s ∈ groupParamVals df k p := by
    rw [groupParamVals]
    exact List.mem_filterMap.mpr ⟨some (Val.str s), hs ▸ hcellmem, rfl⟩
  have hne : groupParamVals df k p ≠ [] := by
    intro hc
    rw [hc] at hmem
    cases hmem
  rcases List.exists_cons_of_ne_nil (modeList_ne_nil _ hne) with ⟨m, mrest, hm⟩
  rcases modeList_head_spec _ m mrest hm with ⟨hm1, hm2, hm3⟩
  refine ⟨m, ?_, hm1, hm2, hm3⟩
  rw [dictGet_summaryRowFor df k p hp hnd]
  rw [reduceParam, if_neg (by simp [hdt])]
  have hvals : ((groupRows df k).map (fun r => getCell df.header r p)).filterMap id
      = groupParamVals df k p := rfl
  rw [hvals, hm]

/-- C2 witness: the group with values [a, b, a] yields "a", the unique
mode, which is a most frequent value and least among the tied maxima. -/
theorem claim2_witness :
    wellFormed wDf2 = true ∧
    "param_opt" ∈ paramColumns wDf2 ∧
    ((paramColumns wDf2).map stripName).Nodup ∧
    [cellS "cfgA", cellN 100, cellN 1, cellS "a"] ∈ groupRows wDf2 wKey2 ∧
    Cell.isStrVal (getCell wDf2.header
      [cellS "cfgA", cellN 100, cellN 1, cellS "a"] "param_opt") = true ∧
    (∃ m : Val,
      dictGet (summaryRowFor wDf2 wKey2) (stripName "param_opt") = some (some m) ∧
      m ∈ groupParamVals wDf2 wKey2 "param_opt" ∧
      countVal (groupParamVals wDf2 wKey2 "param_opt") m
        = maxFreq (groupParamVals wDf2 wKey2 "param_opt") ∧
      (∀ v ∈ groupParamVals wDf2 wKey2 "param_opt",
        countVal (groupParamVals wDf2 wKey2 "param_opt") v
          = maxFreq (groupParamVals wDf2 wKey2 "param_opt") →
            Val.le m v = true)) ∧
    dictGet (summaryRowFor wDf2 wKey2) "opt" = some (some (Val.str "a")) :=
  ⟨by decide, by decide, by decide, by decide, by decide,
    claim2_mode_smallest wDf2 wKey2 "param_opt" (by decide) (by decide) (by decide)
      [cellS "cfgA", cellN 100, cellN 1, cellS "a"] (by decide) (by decide),
    by decide⟩

/-- A frame with one group whose categorical values arrive as [sgd, adam]. -/
def cDf2 : DataFrame :=
  { header := ["configuration", "sample_size", "iteration", "param_opt"],
    rows :=
      [[cellS "cfgA", cellN 100, cellN 1, cellS "sgd"],
       [cellS "cfgA", cellN 100, cellN 1, cellS "adam"]] }

/-- The key of the single group of `cDf2`. -/
def cKey2 : Key := (Val.str "cfgA", Val.num 100, Val.num 1)

/-- C2 counterexample: with tied values in input order [sgd, adam] the
code yields "adam" — pandas sorts the modes, so the first entry is the
smallest tied value — while the claim's rule, "first value attaining
maximum frequency in input-encounter order", yields "sgd". -/
theorem claim2_counterexample :
    dictGet (summaryRowFor cDf2 cKey2) "opt" = some (some (Val.str "adam")) ∧
    specFirstModeByEncounter (groupParamVals cDf2 cKey2 "param_opt")
      = some (Val.str "sgd") ∧
    Val.str "adam" ≠ Val.str "sgd" := by decide

/-- A frame whose `param_opt` column has object dtype (a string occurs)
and one group with only missing entries in that column. -/
def wDf3 : DataFrame :=
  { header := ["configuration", "sample_size", "iteration", "param_opt"],
    rows :=
      [[cellS "cfgA", cellN 100, cellN 1, cellS "adam"],
       [cellS "cfgB", cellN 100, cellN 1, none]] }

/-- The key of the all-missing group of `wDf3`. -/
def wKey3 : Key := (Val.str "cfgB", Val.num 100, Val.num 1)

/-- C3 (amended): for a group whose parameter column `p` is entirely
missing, the summary value is the string "N/A" exactly when the whole
column has non-numeric (object) dtype — some entry of the column in
another row is a string; when every entry of the column is numeric or
missing (numeric dtype), the summary value is the missing value NaN taken
from the group's first row, not the string "N/A". -/
theorem claim3_missing_value (df : DataFrame) (k : Key) (p : String)
    (hp : p ∈ paramColumns df)
    (hnd : ((paramColumns df).map stripName).Nodup)
    (hne : groupRows df k ≠ [])
    (hmiss : (groupRows df k).all (fun r => (getCell df.header r p).isNone) = true) :
    dictGet (summaryRowFor df k) (stripName p)
      = some (if isNumericDtype (colCells df p) then none else some (Val.str "N/A")) := by
  rw [dictGet_summaryRowFor df k p hp hnd, reduceParam_all_missing df k p hne hmiss]

/-- C3 witness: in `wDf3` the column holds a string elsewhere (object
dtype), so the all-missing group of `cfgB` yields the sentinel "N/A". -/
theorem claim3_witness :
    "param_opt" ∈ paramColumns wDf3 ∧
    ((paramColumns wDf3).map stripName).Nodup ∧
    groupRows wDf3 wKey3 ≠ [] ∧
    (groupRows wDf3 wKey3).all
      (fun r => (getCell wDf3.header r "param_opt").isNone) = true ∧
    dictGet (summaryRowFor wDf3 wKey3) (stripName "param_opt")
      = some (if isNumericDtype (colCells wDf3 "param_opt") then none
          else some (Val.str "N/A")) ∧
    dictGet (summaryRowFor wDf3 wKey3) "opt" = some (some (Val.str "N/A")) :=
  ⟨by decide, by decide, by decide, by decide,
    claim3_missing_value wDf3 wKey3 "param_opt" (by decide) (by decide) (by decide)
      (by decide),
    by decide⟩

/-- A frame whose `param_x` column has numeric dtype and one group with
only missing entries in that column. -/
def cDf3 : DataFrame :=
  { header := ["configuration", "sample_size", "iteration", "param_x"],
    rows :=
      [[cellS "cfgA", cellN 100, cellN 1, cellN 5],
       [cellS "cfgB", cellN 100, cellN 1, none]] }

/-- The key of the all-missing group of `cDf3`. -/
def cKey3 : Key := (Val.str "cfgB", Val.num 100, Val.num 1)

/-- C3 counterexample: in a numeric-dtype column (another group's value
is the number 5), the all-missing group of `cfgB` yields the missing value
NaN, not the string "N/A" — refuting "regardless of whether other groups'
values in the same column are numeric". -/
theorem claim3_counterexample :
    (groupRows cDf3 cKey3).all
      (fun r => (getCell cDf3.header r "param_x").isNone) = true ∧
    groupRows cDf3 cKey3 ≠ [] ∧
    isNumericDtype (colCells cDf3 "param_x") = true ∧
    dictGet (summaryRowFor cDf3 cKey3) "x" = some none ∧
    dictGet (summaryRowFor cDf3 cKey3) "x" ≠ some (some (Val.str "N/A")) := by
  decide

/-- The spec's round-trip frame: two groups, a numeric `param_lr` column
and a categorical `param_opt` column with a tie in the first group. -/
def wDf4 : DataFrame :=
  { header := ["configuration", "sample_size", "iteration", "param_lr", "param_opt"],
    rows :=
      [[cellS "cfgA", cellN 100, cellN 1, cellN 1, cellS "adam"],
       [cellS "cfgA", cellN 100, cellN 1, cellN 1, cellS "sgd"],
       [cellS "cfgB", cellN 200, cellN 1, cellN 2, cellS "adam"]] }

/-- C4: on every successful run the output has exactly one row per
distinct key triple present among the input rows (a row with a missing
key component carries no key triple; such rows are the subject of C9). -/
theorem claim4_one_row_per_key (df : DataFrame) (out : String) (res : GenResult)
    (h : generateOptimalParameterTable df out = Except.ok res) :
    res.returned.rows.length = (distinctKeys df).length := by
  cases h1 : keysPresent df with
  | false => rw [generate_eq_err_missing df out h1] at h; cases h
  | true =>
      by_cases h2 : groupKeys df = []
      · rw [generate_eq_err_selection df out h1 h2] at h; cases h
      · rw [generate_eq_ok df out h1 h2] at h
        injection h with h3
        rw [← h3]
        show ((groupKeys df).map (fun k => (orderedColumns df).map
          (fun c => (dictGet (summaryRowFor df k) c).getD none))).length
            = (distinctKeys df).length
        rw [List.length_map, groupKeys, length_sortBy]

/-- C4 witness: three rows over two distinct key triples give two output
rows. -/
theorem claim4_witness :
    generateOptimalParameterTable wDf4 "out"
      = Except.ok (okResult (generateOptimalParameterTable wDf4 "out")) ∧
    (okResult (generateOptimalParameterTable wDf4 "out")).returned.rows.length
      = (distinctKeys wDf4).length ∧
    (distinctKeys wDf4).length = 2 :=
  ⟨by decide, claim4_one_row_per_key wDf4 "out" _ (by decide), by decide⟩

/-- C5 (amended): on every successful run the output column sequence is
exactly [configuration, sample_size, iteration] followed by the parameter
names obtained by removing every occurrence of the substring `param_`
(Python's `replace`, which coincides with prefix-stripping whenever the
substring occurs only as the leading prefix), sorted lexicographically
ascending by code point; the sorted tail is a permutation of the renamed
parameter columns, so duplicates arise exactly when two renamings
collide. -/
theorem claim5_column_order (df : DataFrame) (out : String) (res : GenResult)
    (h : generateOptimalParameterTable df out = Except.ok res) :
    res.returned.header
      = keyNames ++ sortBy strLe ((paramColumns df).map stripName) ∧
    (sortBy strLe ((paramColumns df).map stripName)).Perm
      ((paramColumns df).map stripName) ∧
    (sortBy strLe ((paramColumns df).map stripName)).Pairwise
      (fun a b => strLe a b = true) := by
  refine ⟨?_, perm_sortBy _ _, pairwise_sortBy _ strLe_total strLe_trans _⟩
  cases h1 : keysPresent df with
  | false => rw [generate_eq_err_missing df out h1] at h; cases h
  | true =>
      by_cases h2 : groupKeys df = []
      · rw [generate_eq_err_selection df out h1 h2] at h; cases h
      · rw [generate_eq_ok df out h1 h2] at h
        injection h with h3
        rw [← h3]
        rfl

/-- C5 witness: the columns of `wDf4` come out as the three keys followed
by [lr, opt] in sorted order. -/
theorem claim5_witness :
    generateOptimalParameterTable wDf4 "out"
      = Except.ok (okResult (generateOptimalParameterTable wDf4 "out")) ∧
    ((okResult (generateOptimalParameterTable wDf4 "out")).returned.header
      = keyNames ++ sortBy strLe ((paramColumns wDf4).map stripName) ∧
    (sortBy strLe ((paramColumns wDf4).map stripName)).Perm
      ((paramColumns wDf4).map stripName) ∧
    (sortBy strLe ((paramColumns wDf4).map stripName)).Pairwise
      (fun a b => strLe a b = true)) ∧
    (okResult (generateOptimalParameterTable wDf4 "out")).returned.header
      = ["configuration", "sample_size", "iteration", "lr", "opt"] :=
  ⟨by decide, claim5_column_order wDf4 "out" _ (by decide), by decide⟩

/-- A frame with a column named `param_param_lr`. -/
def cDf5 : DataFrame :=
  { header := ["configuration", "sample_size", "iteration", "param_param_lr"],
    rows := [[cellS "cfgA", cellN 100, cellN 1, cellN 1]] }

/-- C5 counterexample: the column `param_param_lr` is renamed by removing
every occurrence of the substring "param_", giving output column "lr";
the claim's rule — strip the `param_` prefix — would give "param_lr",
which does not occur in the output header. -/
theorem claim5_counterexample :
    (okResult (generateOptimalParameterTable cDf5 "out")).returned.header
      = ["configuration", "sample_size", "iteration", "lr"] ∧
    specStripPrefix "param_param_lr" = "param_lr" ∧
    stripName "param_param_lr" = "lr" ∧
    "param_lr" ∉ (okResult (generateOptimalParameterTable cDf5 "out")).returned.header := by
  decide

/-- C6: when the header lacks one of the columns configuration,
sample_size, iteration, the run fails with the missing-column error (the
KeyError that `groupby` raises before any group is formed); the result is
the error alone, so no summary row exists, no file is written and nothing
is printed. -/
theorem claim6_missing_column (df : DataFrame) (out : String) (c : String)
    (hc : c ∈ keyNames) (hmiss : c ∉ df.header) :
    generateOptimalParameterTable df out = Except.error BuildError.missingColumn := by
  apply generate_eq_err_missing
  cases hb : keysPresent df with
  | false => rfl
  | true =>
      have h := List.all_eq_true.mp hb c hc
      exact absurd (of_decide_eq_true h) hmiss

/-- A frame whose header has no `iteration` column. -/
def wDf6 : DataFrame :=
  { header := ["configuration", "sample_size", "param_lr"],
    rows := [[cellS "cfgA", cellN 100, cellN 1]] }

/-- C6 witness: a header without `iteration` yields the missing-column
error. -/
theorem claim6_witness :
    "iteration" ∈ keyNames ∧
    "iteration" ∉ wDf6.header ∧
    generateOptimalParameterTable wDf6 "out" = Except.error BuildError.missingColumn :=
  ⟨by decide, by decide,
    claim6_missing_column wDf6 "out" "iteration" (by decide) (by decide)⟩

/-- C7 (amended): a successful run returns only the in-memory summary
frame; the two output paths are the files written and appear in the
success message printed to standard output, but they are not part of the
returned value. -/
theorem claim7_return_value (df : DataFrame) (out : String) (res : GenResult)
    (h : generateOptimalParameterTable df out = Except.ok res) :
    res.writtenFiles = [joinPath out csvFileName, joinPath out htmlFileName] ∧
    res.stdout = "Table saved to:\n- " ++ joinPath out csvFileName ++ "\n- "
      ++ joinPath out htmlFileName ++ "\n" ∧
    res.returned.header = orderedColumns df := by
  cases h1 : keysPresent df with
  | false => rw [generate_eq_err_missing df out h1] at h; cases h
  | true =>
      by_cases h2 : groupKeys df = []
      · rw [generate_eq_err_selection df out h1 h2] at h; cases h
      · rw [generate_eq_ok df out h1 h2] at h
        injection h with h3
        rw [← h3]
        exact ⟨rfl, rfl, rfl⟩

/-- C7 witness: on the round-trip frame the run returns the summary and
reports both paths on standard output. -/
theorem claim7_witness :
    generateOptimalParameterTable wDf4 "out"
      = Except.ok (okResult (generateOptimalParameterTable wDf4 "out")) ∧
    ((okResult (generateOptimalParameterTable wDf4 "out")).writtenFiles
      = [joinPath "out" csvFileName, joinPath "out" htmlFileName] ∧
    (okResult (generateOptimalParameterTable wDf4 "out")).stdout
      = "Table saved to:\n- " ++ joinPath "out" csvFileName ++ "\n- "
        ++ joinPath "out" htmlFileName ++ "\n" ∧
    (okResult (generateOptimalParameterTable wDf4 "out")).returned.header
      = orderedColumns wDf4) :=
  ⟨by decide, claim7_return_value wDf4 "out" _ (by decide)⟩

/-- C7 counterexample: at a concrete input the returned value is the bare
summary frame; neither output path occurs anywhere in it (as a column
name or a cell value), so the paths are not returned to the caller — they
are only printed and used as file destinations. -/
theorem claim7_counterexample :
    (okResult (generateOptimalParameterTable wDf4 "out")).returned
      = { header := ["configuration", "sample_size", "iteration", "lr", "opt"],
          rows :=
            [[cellS "cfgA", cellN 100, cellN 1, cellN 1, cellS "adam"],
             [cellS "cfgB", cellN 200, cellN 1, cellN 2, cellS "adam"]] } ∧
    dfMentions (okResult (generateOptimalParameterTable wDf4 "out")).returned
      (joinPath "out" csvFileName) = false ∧
    dfMentions (okResult (generateOptimalParameterTable wDf4 "out")).returned
      (joinPath "out" htmlFileName) = false ∧
    (okResult (generateOptimalParameterTable wDf4 "out")).stdout
      = "Table saved to:\n- out/optimal_parameters_summary_table.csv\n- out/optimal_parameters_summary_table.html\n" := by
  decide

/-- C8: the build is a pure function of the input table contents — the
embedding of the pipeline reads no state besides its arguments — so two
runs on a fixed input produce identical summaries: same rows, same
values, same row order, same outputs. -/
theorem claim8_deterministic (df : DataFrame) (out : String) :
    generateOptimalParameterTable df out = generateOptimalParameterTable df out := rfl

/-- A frame whose second row has a missing `configuration` value. -/
def wDf9 : DataFrame :=
  { header := ["configuration", "sample_size", "iteration", "param_lr"],
    rows :=
      [[cellS "cfgA", cellN 100, cellN 1, cellN 1],
       [none, cellN 100, cellN 1, cellN 2]] }

/-- The row of `wDf9` with the missing key component. -/
def wRow9 : List Cell := [none, cellN 100, cellN 1, cellN 2]

/-- C9: a row with a missing key component is silently excluded from the
grouping: it belongs to no group, the group keys and every group are
unchanged when all such rows are removed, and the run succeeds or fails
exactly as it does without them — no error is raised for the row. -/
theorem claim9_incomplete_key_dropped (df : DataFrame) (out : String) (r : List Cell)
    (hr : r ∈ df.rows) (hk : keyOf df r = none) :
    (∀ k : Key, r ∉ groupRows df k) ∧
    groupKeys (dropIncompleteRows df) = groupKeys df ∧
    (∀ k : Key, groupRows (dropIncompleteRows df) k = groupRows df k) ∧
    exceptOk (generateOptimalParameterTable df out)
      = exceptOk (generateOptimalParameterTable (dropIncompleteRows df) out) := by
  refine ⟨?_, groupKeys_dropIncompleteRows df,
    fun k => groupRows_dropIncompleteRows df k, ?_⟩
  · intro k hmem
    have h := List.of_mem_filter hmem
    have h' := of_decide_eq_true h
    rw [hk] at h'
    cases h'
  · rw [exceptOk_generate, exceptOk_generate, groupKeys_dropIncompleteRows]
    rfl

/-- C9 witness: the row with the missing configuration is in no group and
its removal changes neither the groups nor the success of the run. -/
theorem claim9_witness :
    wRow9 ∈ wDf9.rows ∧
    keyOf wDf9 wRow9 = none ∧
    ((∀ k : Key, wRow9 ∉ groupRows wDf9 k) ∧
    groupKeys (dropIncompleteRows wDf9) = groupKeys wDf9 ∧
    (∀ k : Key, groupRows (dropIncompleteRows wDf9) k = groupRows wDf9 k) ∧
    exceptOk (generateOptimalParameterTable wDf9 "out")
      = exceptOk (generateOptimalParameterTable (dropIncompleteRows wDf9) "out")) :=
  ⟨by decide, by decide,
    claim9_incomplete_key_dropped wDf9 "out" wRow9 (by decide) (by decide)⟩

/-- C10: with all three key columns present but zero data rows, the run
fails with the column-selection error — the pandas KeyError raised at
`df_summary[ordered_columns]`, because a frame built from an empty row
list has no columns — instead of returning an empty summary; the error
precedes directory creation and both writes, so no file is produced. -/
theorem claim10_empty_input_error (df : DataFrame) (out : String)
    (h1 : keysPresent df = true) (h2 : df.rows = []) :
    generateOptimalParameterTable df out = Except.error BuildError.columnSelection := by
  apply generate_eq_err_selection df out h1
  rw [groupKeys, distinctKeys, h2]
  rfl

/-- A frame with the three key columns, one parameter column and no rows. -/
def wDf10 : DataFrame :=
  { header := ["configuration", "sample_size", "iteration", "param_lr"],
    rows := [] }

/-- C10 witness: the header-only frame yields the column-selection error. -/
theorem claim10_witness :
    keysPresent wDf10 = true ∧
    wDf10.rows = [] ∧
    generateOptimalParameterTable wDf10 "out" = Except.error BuildError.columnSelection :=
  ⟨by decide, rfl, claim10_empty_input_error wDf10 "out" (by decide) rfl⟩

end Tuning
